import Mathlib

/-!
Shallow embedding of the TypeScript `Option` library (src/Option.ts, src/index.ts).

The library defines a base class `Option<T>` with two subclasses `Some<T>` and
`None<T>`.  Variant dispatch is by runtime `instanceof` checks, object identity
(JavaScript reference equality) is observable, and `unwrap` throws an
`OptionError` on a `None` receiver.

Modelling choices:
* A JavaScript value is a `JVal`: `undefined` (undefined), `null`, an opaque
  non-Option value `prim n`, or an Option instance `someObj id v` / `noneObj id`.
  The `id : Nat` is the object's identity: `new` allocations take fresh ids, so
  reference equality of Option instances is equality of `JVal`s.
* Allocation is modelled by threading a state `S` holding the next fresh id
  (`next`).  `S` also carries a scratch counter `calls` that the library code
  never touches; caller-supplied functions may bump it, which lets theorems
  count how often a combinator invokes them.
* Methods that execute `throw` / may propagate a thrown `OptionError`
  (`unwrap` itself, and every method whose body calls `this.unwrap()`, plus
  `flatten`, which is defined via `mapOrElse`) return `Except OptionError _`.
* Caller-supplied functions are modelled as state-passing functions
  `JVal → S → JVal × S` (they may allocate and may bump `calls`).
-/

namespace OptionTS

/-- A JavaScript value, as far as this library can observe it. -/
inductive JVal : Type where
  | undefined : JVal
  | null : JVal
  | prim : Nat → JVal
  | someObj : Nat → JVal → JVal
  | noneObj : Nat → JVal
deriving DecidableEq, Repr

/-- Allocation / instrumentation state: `next` is the next fresh object id,
`calls` is a scratch counter for caller-supplied functions (the library code
never reads or writes it). -/
structure S : Type where
  next : Nat
  calls : Nat
deriving DecidableEq, Repr

/-- The two `OptionError` kinds of src/Option.ts. -/
inductive OptionError : Type where
  | illegalUnwrap : OptionError
  | illegalInstantiation : OptionError
deriving DecidableEq, Repr

/-- The error messages carried by `OptionError.illegalUnwrap` and
`OptionError.illegalInstantiation`. -/
def OptionError.message : OptionError → String
  | .illegalUnwrap => "tried to unwrap on None"
  | .illegalInstantiation => "Option must be an instance of Some or None"

/-- `this instanceof Some`. -/
def isSome : JVal → Bool
  | .someObj _ _ => true
  | _ => false

/-- `this instanceof None`. -/
def isNone : JVal → Bool
  | .noneObj _ => true
  | _ => false

/-- The value is an instance of the `Option` hierarchy (a `Some` or a `None`). -/
def isOptionInstance (v : JVal) : Bool := isSome v || isNone v

/-- The `_value` field of an Option instance (`undefined` for a `None`, whose
constructor passes `undefined` to `super`). -/
def valueField : JVal → JVal
  | .someObj _ v => v
  | _ => .undefined

/-- Strict upper bound on the object ids occurring in a value. -/
def maxId : JVal → Nat
  | .undefined => 0
  | .null => 0
  | .prim _ => 0
  | .someObj i v => max (i + 1) (maxId v)
  | .noneObj i => i + 1

/-- Well-formedness of a value with respect to the allocator: every object id
occurring in it was allocated earlier, i.e. is below `s.next`. -/
def wf (s : S) (v : JVal) : Prop := maxId v ≤ s.next

/-- `new Some(value)`: allocates a fresh `Some` instance. -/
def newSome (value : JVal) (s : S) : JVal × S :=
  (.someObj s.next value, ⟨s.next + 1, s.calls⟩)

/-- `new None()`: allocates a fresh `None` instance. -/
def newNone (s : S) : JVal × S :=
  (.noneObj s.next, ⟨s.next + 1, s.calls⟩)

/-- `Option.prototype.unwrap`: returns `this._value` if `this.isSome()`,
otherwise throws `OptionError.illegalUnwrap()`. -/
def unwrap (self : JVal) : Except OptionError JVal :=
  if isSome self then .ok (valueField self)
  else .error .illegalUnwrap

/-- `Option.prototype.unwrapOr`. -/
def unwrapOr (self fallback : JVal) : Except OptionError JVal :=
  if isSome self then unwrap self
  else .ok fallback

/-- `Option.prototype.unwrapOrElse`. -/
def unwrapOrElse (self : JVal) (op : Unit → S → JVal × S) (s : S) :
    Except OptionError (JVal × S) :=
  if isSome self then do
    let v ← unwrap self
    .ok (v, s)
  else .ok (op () s)

/-- `Option.prototype.map`: `new Some(op(this.unwrap()))` if `this.isSome()`,
else `new None()`.  The argument `op` runs before the `Some` is allocated. -/
def map (self : JVal) (op : JVal → S → JVal × S) (s : S) :
    Except OptionError (JVal × S) :=
  if isSome self then do
    let v ← unwrap self
    let r := op v s
    .ok (newSome r.1 r.2)
  else .ok (newNone s)

/-- `Option.prototype.mapOr`. -/
def mapOr (self fallback : JVal) (op : JVal → S → JVal × S) (s : S) :
    Except OptionError (JVal × S) :=
  if isSome self then do
    let v ← unwrap self
    .ok (op v s)
  else .ok (fallback, s)

/-- `Option.prototype.mapOrElse`. -/
def mapOrElse (self : JVal) (fallback : Unit → S → JVal × S)
    (op : JVal → S → JVal × S) (s : S) : Except OptionError (JVal × S) :=
  if isSome self then do
    let v ← unwrap self
    .ok (op v s)
  else .ok (fallback () s)

/-- `Option.prototype.and`. -/
def and (self optb : JVal) (s : S) : JVal × S :=
  if isSome self then (optb, s)
  else newNone s

/-- `Option.prototype.andThen`. -/
def andThen (self : JVal) (op : JVal → S → JVal × S) (s : S) :
    Except OptionError (JVal × S) :=
  if isSome self then do
    let v ← unwrap self
    .ok (op v s)
  else .ok (newNone s)

/-- `Option.prototype.filter`: literally
`this.andThen(val => op(val) ? this : new None())`. -/
def filter (self : JVal) (op : JVal → Bool) (s : S) :
    Except OptionError (JVal × S) :=
  andThen self (fun val t => if op val then (self, t) else newNone t) s

/-- `Option.prototype.or`. -/
def or (self optb : JVal) : JVal :=
  if isSome self then self
  else optb

/-- `Option.prototype.orElse`. -/
def orElse (self : JVal) (op : Unit → S → JVal × S) (s : S) : JVal × S :=
  if isSome self then (self, s)
  else op () s

/-- `Option.prototype.xor`. -/
def xor (self optb : JVal) (s : S) : JVal × S :=
  if isSome self then
    if isSome optb then newNone s
    else (self, s)
  else
    if isSome optb then (optb, s)
    else newNone s

/-- `Option.prototype.flatten`: literally
`this.mapOrElse(() => new None(), val => val instanceof Some ? val : this)`. -/
def flatten (self : JVal) (s : S) : Except OptionError (JVal × S) :=
  mapOrElse self
    (fun _ t => newNone t)
    (fun val t => if isSome val then (val, t) else (self, t))
    s

/-- `Option.default`: `new None()`. -/
def default (s : S) : JVal × S := newNone s

/-- The free function `some` of src/index.ts: `new Some(value)`. -/
def some (value : JVal) (s : S) : JVal × S := newSome value s

/-- The free function `none` of src/index.ts: `new None()`. -/
def none (s : S) : JVal × S := newNone s

/-- The dynamic class a `new` expression constructs through the `Option`
constructor: the base class itself, or one of the two subclasses. -/
inductive OClass : Type where
  | base : OClass
  | someC : OClass
  | noneC : OClass
deriving DecidableEq, Repr

/-- A freshly allocated, not yet initialised object entering the `Option`
constructor: its dynamic class, its identity, and the `value` argument
(`None`'s constructor passes `undefined`). -/
structure RawObj : Type where
  cls : OClass
  id : Nat
  value : JVal
deriving DecidableEq, Repr

/-- `this instanceof Some` as evaluated inside the constructor body. -/
def RawObj.rawIsSome (o : RawObj) : Bool := o.cls = OClass.someC

/-- `this instanceof None` as evaluated inside the constructor body. -/
def RawObj.rawIsNone (o : RawObj) : Bool := o.cls = OClass.noneC

/-- The `Option` constructor body: throws `OptionError.illegalInstantiation()`
unless `this` is an instance of `Some` or `None`; otherwise assigns `_value`
and completes, yielding the constructed `JVal`. -/
def optionConstructor (o : RawObj) : Except OptionError JVal :=
  if !(o.rawIsSome) && !(o.rawIsNone) then .error .illegalInstantiation
  else if o.rawIsSome then .ok (.someObj o.id o.value)
  else .ok (.noneObj o.id)

/-- The variant-and-value view of an Option instance: which variant it is and,
for a `Some`, the held value — identity (object id) erased. -/
inductive View : Type where
  | presentView : JVal → View
  | absentView : View
deriving DecidableEq, Repr

/-- Observe an Option instance up to identity: variant plus held value. -/
def view : JVal → View
  | .someObj _ v => .presentView v
  | _ => .absentView

/-- Did the computation complete without throwing? -/
def exceptOk : Except OptionError α → Bool
  | .ok _ => true
  | .error _ => false

/-- Sample caller-supplied function: returns the value unchanged. -/
def opId : JVal → S → JVal × S := fun v s => (v, s)

/-- Sample caller-supplied thunk: allocates a fresh `None`. -/
def fbNone : Unit → S → JVal × S := fun _ s => newNone s

/-- Sample predicate that accepts every value. -/
def predTrue : JVal → Bool := fun _ => true

instance wfDecidable (s : S) (v : JVal) : Decidable (wf s v) :=
  Nat.decLe (maxId v) s.next

@[simp] lemma isSome_someObj (i : Nat) (v : JVal) : isSome (JVal.someObj i v) = true := rfl

@[simp] lemma isSome_noneObj (i : Nat) : isSome (JVal.noneObj i) = false := rfl

@[simp] lemma isSome_undefined : isSome JVal.undefined = false := rfl

@[simp] lemma isSome_null : isSome JVal.null = false := rfl

@[simp] lemma isSome_prim (n : Nat) : isSome (JVal.prim n) = false := rfl

@[simp] lemma isNone_someObj (i : Nat) (v : JVal) : isNone (JVal.someObj i v) = false := rfl

@[simp] lemma isNone_noneObj (i : Nat) : isNone (JVal.noneObj i) = true := rfl

@[simp] lemma isNone_undefined : isNone JVal.undefined = false := rfl

@[simp] lemma isNone_null : isNone JVal.null = false := rfl

@[simp] lemma isNone_prim (n : Nat) : isNone (JVal.prim n) = false := rfl

@[simp] lemma valueField_someObj (i : Nat) (v : JVal) :
    valueField (JVal.someObj i v) = v := rfl

@[simp] lemma unwrap_someObj (i : Nat) (v : JVal) :
    unwrap (JVal.someObj i v) = .ok v := rfl

@[simp] lemma unwrap_noneObj (i : Nat) :
    unwrap (JVal.noneObj i) = .error .illegalUnwrap := rfl

@[simp] lemma exceptBind_ok {α β : Type} (a : α)
    (k : α → Except OptionError β) : (Except.ok a >>= k) = k a := rfl

/-- Exactly one of `isSome` / `isNone` holds of the value. -/
def exactlyOneVariant (v : JVal) : Prop := (isSome v != isNone v) = true

lemma exactlyOneVariant_of_instance {v : JVal} (h : isOptionInstance v = true) :
    exactlyOneVariant v := by
  cases v <;> simp_all [isOptionInstance, isSome, isNone, exactlyOneVariant]

/-- C9: the static operation `Option.default()` returns a freshly constructed
`None` instance: its `isNone()` is `true`, its `isSome()` is `false`, and it is
the allocation of a brand-new object (id `s.next`). -/
theorem C9_default_fresh_none (s : S) :
    isNone (default s).1 = true
    ∧ isSome (default s).1 = false
    ∧ default s = (JVal.noneObj s.next, ⟨s.next + 1, s.calls⟩) :=
  ⟨rfl, rfl, rfl⟩

/-- C10: `xor` is commutative at the value level: `a.xor(b)` and `b.xor(a)`
have the same variant-and-value view (either both Present with the same held
value, or both Absent), whatever the allocator states. -/
theorem C10_xor_comm_view (a b : JVal) (s t : S) :
    view (xor a b s).1 = view (xor b a t).1 := by
  cases a <;> cases b <;> rfl

/-- C7: for every value `v` — including the absent-like values `null` and
`undefined` — the free function `some(v)` builds a Present whose `unwrap()`
returns exactly `v`; the constructor never special-cases the wrapped value, so
`isSome` is `true` and `isNone` is `false` on the result. -/
theorem C7_some_wraps_unconditionally (v : JVal) (s : S) :
    unwrap (some v s).1 = .ok v
    ∧ isSome (some v s).1 = true
    ∧ isNone (some v s).1 = false :=
  ⟨rfl, rfl, rfl⟩

/-- C5: running the `Option` constructor on an object whose dynamic class is
the base class itself fails with `OptionError.illegalInstantiation`, while
running it on an object of class `Some` or `None` completes normally with the
constructed instance. -/
theorem C5_constructor_guard (o : RawObj) :
    (o.cls = OClass.base → optionConstructor o = .error .illegalInstantiation)
    ∧ (o.cls = OClass.someC → optionConstructor o = .ok (.someObj o.id o.value))
    ∧ (o.cls = OClass.noneC → optionConstructor o = .ok (.noneObj o.id)) := by
  obtain ⟨c, i, v⟩ := o
  cases c <;> simp [optionConstructor, RawObj.rawIsSome, RawObj.rawIsNone]

theorem C5_constructor_guard_witness :
    optionConstructor ⟨OClass.base, 0, JVal.undefined⟩ = .error .illegalInstantiation
    ∧ optionConstructor ⟨OClass.someC, 1, JVal.prim 5⟩ = .ok (JVal.someObj 1 (JVal.prim 5))
    ∧ optionConstructor ⟨OClass.noneC, 2, JVal.undefined⟩ = .ok (JVal.noneObj 2) :=
  ⟨(C5_constructor_guard ⟨OClass.base, 0, JVal.undefined⟩).1 rfl,
   (C5_constructor_guard ⟨OClass.someC, 1, JVal.prim 5⟩).2.1 rfl,
   (C5_constructor_guard ⟨OClass.noneC, 2, JVal.undefined⟩).2.2 rfl⟩

/-- C1: on an Option instance, `unwrap()` returns the held value exactly when
the receiver is a `Some`, and throws `OptionError.illegalUnwrap` exactly when
the receiver is a `None`; every other combinator — `unwrapOr`, `unwrapOrElse`,
`map`, `mapOr`, `mapOrElse`, `andThen`, `filter`, `flatten` (those whose body
could reach a `throw`) — always completes without an error. -/
theorem C1_unwrap_only_failure (self fb : JVal)
    (opU : Unit → S → JVal × S) (opM : JVal → S → JVal × S)
    (fbM : Unit → S → JVal × S) (p : JVal → Bool) (s : S)
    (h : isOptionInstance self = true) :
    (isSome self = true → unwrap self = .ok (valueField self))
    ∧ (unwrap self = .error .illegalUnwrap ↔ isNone self = true)
    ∧ exceptOk (unwrapOr self fb) = true
    ∧ exceptOk (unwrapOrElse self opU s) = true
    ∧ exceptOk (map self opM s) = true
    ∧ exceptOk (mapOr self fb opM s) = true
    ∧ exceptOk (mapOrElse self fbM opM s) = true
    ∧ exceptOk (andThen self opM s) = true
    ∧ exceptOk (filter self p s) = true
    ∧ exceptOk (flatten self s) = true := by
  cases self with
  | undefined => simp [isOptionInstance] at h
  | null => simp [isOptionInstance] at h
  | prim n => simp [isOptionInstance] at h
  | someObj i v =>
      exact ⟨fun _ => rfl, by simp, rfl, rfl, rfl, rfl, rfl, rfl, rfl, rfl⟩
  | noneObj i =>
      exact ⟨by simp, by simp, rfl, rfl, rfl, rfl, rfl, rfl, rfl, rfl⟩

theorem C1_unwrap_only_failure_witness :
    isOptionInstance (JVal.someObj 0 (JVal.prim 7)) = true
    ∧ isOptionInstance (JVal.noneObj 1) = true
    ∧ unwrap (JVal.someObj 0 (JVal.prim 7)) = .ok (JVal.prim 7)
    ∧ unwrap (JVal.noneObj 1) = .error .illegalUnwrap
    ∧ exceptOk (flatten (JVal.noneObj 1) ⟨2, 0⟩) = true :=
  ⟨rfl, rfl,
   (C1_unwrap_only_failure (JVal.someObj 0 (JVal.prim 7)) JVal.undefined
      fbNone opId fbNone predTrue ⟨2, 0⟩ rfl).1 rfl,
   ((C1_unwrap_only_failure (JVal.noneObj 1) JVal.undefined
      fbNone opId fbNone predTrue ⟨2, 0⟩ rfl).2.1).mpr rfl,
   (C1_unwrap_only_failure (JVal.noneObj 1) JVal.undefined
      fbNone opId fbNone predTrue ⟨2, 0⟩ rfl).2.2.2.2.2.2.2.2.2⟩

/-- C2: `flatten()` returns the inner Option when the receiver is a `Some`
holding a `Some`; returns the receiver itself, unchanged and without
allocating, when the receiver is a `Some` whose held value is not a `Some`
(be it a `None`, or not an Option at all) — so `Some(None).flatten()` is the
`Some(None)` receiver, not a `None`; and returns a freshly allocated `None`,
distinct from the receiver, when the receiver is a `None`. -/
theorem C2_flatten_one_level (self : JVal) (s : S)
    (h : isOptionInstance self = true) (hw : wf s self) :
    (∀ i p, self = JVal.someObj i p → isSome p = true → flatten self s = .ok (p, s))
    ∧ (∀ i p, self = JVal.someObj i p → isSome p = false → flatten self s = .ok (self, s))
    ∧ (isNone self = true →
        flatten self s = .ok (JVal.noneObj s.next, ⟨s.next + 1, s.calls⟩)
        ∧ JVal.noneObj s.next ≠ self) := by
  cases self with
  | someObj i p =>
      refine ⟨?_, ?_, by simp⟩ <;> intro i' p' he hp <;>
        (injection he with h1 h2; subst h1; subst h2;
         simp [flatten, mapOrElse, hp])
  | noneObj i =>
      refine ⟨by simp, by simp, fun _ => ⟨rfl, ?_⟩⟩
      simp only [wf, maxId] at hw
      intro he
      injection he with h1
      omega
  | undefined => simp [isOptionInstance] at h
  | null => simp [isOptionInstance] at h
  | prim n => simp [isOptionInstance] at h

theorem C2_flatten_one_level_witness :
    isOptionInstance (JVal.someObj 2 (JVal.noneObj 1)) = true
    ∧ wf ⟨3, 0⟩ (JVal.someObj 2 (JVal.noneObj 1))
    ∧ flatten (JVal.someObj 2 (JVal.noneObj 1)) ⟨3, 0⟩
        = .ok (JVal.someObj 2 (JVal.noneObj 1), ⟨3, 0⟩) :=
  ⟨rfl, by decide,
   (C2_flatten_one_level (JVal.someObj 2 (JVal.noneObj 1)) ⟨3, 0⟩ rfl
      (by decide)).2.1 2 (JVal.noneObj 1) rfl rfl⟩

lemma noneObj_fresh_ne_noneObj {s : S} {i : Nat} (h : i + 1 ≤ s.next) :
    JVal.noneObj s.next ≠ JVal.noneObj i := by
  intro he
  injection he with h1
  omega

/-- C3: `filter(p)` is extensionally equal to the composition
`andThen(v => p(v) ? this : new None())`, and behaves by cases as: the receiver
itself (no allocation) when the receiver is a `Some` whose value satisfies `p`;
a freshly allocated `None`, distinct from the receiver, when the receiver is a
`Some` whose value fails `p`; and a freshly allocated `None`, distinct from the
receiver, when the receiver is a `None`. -/
theorem C3_filter_as_andThen (self : JVal) (p : JVal → Bool) (s : S)
    (h : isOptionInstance self = true) (hw : wf s self) :
    filter self p s
      = andThen self (fun v t => if p v then (self, t) else newNone t) s
    ∧ (isSome self = true → p (valueField self) = true →
        filter self p s = .ok (self, s))
    ∧ (isSome self = true → p (valueField self) = false →
        filter self p s = .ok (JVal.noneObj s.next, ⟨s.next + 1, s.calls⟩)
        ∧ JVal.noneObj s.next ≠ self)
    ∧ (isNone self = true →
        filter self p s = .ok (JVal.noneObj s.next, ⟨s.next + 1, s.calls⟩)
        ∧ JVal.noneObj s.next ≠ self) := by
  refine ⟨rfl, ?_, ?_, ?_⟩
  · cases self with
    | someObj i v =>
        intro _ hp
        simp only [valueField_someObj] at hp
        simp [filter, andThen, hp]
    | noneObj i => simp
    | undefined => simp [isOptionInstance] at h
    | null => simp [isOptionInstance] at h
    | prim n => simp [isOptionInstance] at h
  · cases self with
    | someObj i v =>
        intro _ hp
        simp only [valueField_someObj] at hp
        exact ⟨by simp [filter, andThen, hp, newNone], fun he => JVal.noConfusion he⟩
    | noneObj i => simp
    | undefined => simp [isOptionInstance] at h
    | null => simp [isOptionInstance] at h
    | prim n => simp [isOptionInstance] at h
  · cases self with
    | someObj i v => simp
    | noneObj i =>
        intro _
        refine ⟨rfl, noneObj_fresh_ne_noneObj ?_⟩
        simpa [wf, maxId] using hw
    | undefined => simp [isOptionInstance] at h
    | null => simp [isOptionInstance] at h
    | prim n => simp [isOptionInstance] at h

theorem C3_filter_as_andThen_witness :
    isOptionInstance (JVal.someObj 0 (JVal.prim 4)) = true
    ∧ wf ⟨1, 0⟩ (JVal.someObj 0 (JVal.prim 4))
    ∧ predTrue (JVal.prim 4) = true
    ∧ filter (JVal.someObj 0 (JVal.prim 4)) predTrue ⟨1, 0⟩
        = .ok (JVal.someObj 0 (JVal.prim 4), ⟨1, 0⟩) :=
  ⟨rfl, by decide, rfl,
   (C3_filter_as_andThen (JVal.someObj 0 (JVal.prim 4)) predTrue ⟨1, 0⟩ rfl
      (by decide)).2.1 rfl rfl⟩

/-- C4: `a.xor(b)` is a `Some` exactly when exactly one of `a`, `b` is a
`Some`; in the exactly-one cases it returns that operand itself with no
allocation; in the both-`Some` case it returns a freshly allocated `None`; in
the both-`None` case it returns a freshly allocated `None` distinct from both
inputs. -/
theorem C4_xor_exactly_one (a b : JVal) (s : S)
    (ha : isOptionInstance a = true) (hb : isOptionInstance b = true)
    (hwa : wf s a) (hwb : wf s b) :
    isSome (xor a b s).1 = (isSome a != isSome b)
    ∧ (isSome a = true → isSome b = false → xor a b s = (a, s))
    ∧ (isSome a = false → isSome b = true → xor a b s = (b, s))
    ∧ (isSome a = true → isSome b = true →
        xor a b s = (JVal.noneObj s.next, ⟨s.next + 1, s.calls⟩))
    ∧ (isSome a = false → isSome b = false →
        xor a b s = (JVal.noneObj s.next, ⟨s.next + 1, s.calls⟩)
        ∧ JVal.noneObj s.next ≠ a ∧ JVal.noneObj s.next ≠ b) := by
  cases a with
  | someObj i v =>
      cases b with
      | someObj j w => exact ⟨rfl, by simp, by simp, fun _ _ => rfl, by simp⟩
      | noneObj j => exact ⟨rfl, fun _ _ => rfl, by simp, by simp, by simp⟩
      | undefined => simp [isOptionInstance] at hb
      | null => simp [isOptionInstance] at hb
      | prim n => simp [isOptionInstance] at hb
  | noneObj i =>
      cases b with
      | someObj j w => exact ⟨rfl, by simp, fun _ _ => rfl, by simp, by simp⟩
      | noneObj j =>
          refine ⟨rfl, by simp, by simp, by simp, fun _ _ => ⟨rfl, ?_, ?_⟩⟩
          · exact noneObj_fresh_ne_noneObj (by simpa [wf, maxId] using hwa)
          · exact noneObj_fresh_ne_noneObj (by simpa [wf, maxId] using hwb)
      | undefined => simp [isOptionInstance] at hb
      | null => simp [isOptionInstance] at hb
      | prim n => simp [isOptionInstance] at hb
  | undefined => simp [isOptionInstance] at ha
  | null => simp [isOptionInstance] at ha
  | prim n => simp [isOptionInstance] at ha

theorem C4_xor_exactly_one_witness :
    isOptionInstance (JVal.noneObj 0) = true
    ∧ isOptionInstance (JVal.noneObj 1) = true
    ∧ wf ⟨2, 0⟩ (JVal.noneObj 0)
    ∧ wf ⟨2, 0⟩ (JVal.noneObj 1)
    ∧ xor (JVal.noneObj 0) (JVal.noneObj 1) ⟨2, 0⟩ = (JVal.noneObj 2, ⟨3, 0⟩)
    ∧ JVal.noneObj 2 ≠ JVal.noneObj 0
    ∧ JVal.noneObj 2 ≠ JVal.noneObj 1 := by
  have h := (C4_xor_exactly_one (JVal.noneObj 0) (JVal.noneObj 1) ⟨2, 0⟩
      rfl rfl (by decide) (by decide)).2.2.2.2 rfl rfl
  exact ⟨rfl, rfl, by decide, by decide, h.1, h.2.1, h.2.2⟩

/-- C6: on a `Some` receiver, `map(op)` invokes `op` exactly once on the held
value and returns a freshly allocated `Some` (distinct from the receiver)
wrapping the result; on a `None` receiver it returns a freshly allocated
`None` distinct from the receiver, and never invokes `op` — the result is the
same for any two transforms. -/
theorem C6_map_fresh_some (self : JVal) (g : JVal → JVal)
    (opA opB : JVal → S → JVal × S) (s : S)
    (h : isOptionInstance self = true) (hw : wf s self) :
    (isSome self = true →
        map self (fun v t => (g v, ⟨t.next, t.calls + 1⟩)) s
          = .ok (JVal.someObj s.next (g (valueField self)), ⟨s.next + 1, s.calls + 1⟩)
        ∧ JVal.someObj s.next (g (valueField self)) ≠ self)
    ∧ (isNone self = true →
        map self opA s = .ok (JVal.noneObj s.next, ⟨s.next + 1, s.calls⟩)
        ∧ map self opA s = map self opB s
        ∧ JVal.noneObj s.next ≠ self) := by
  cases self with
  | someObj i v =>
      refine ⟨fun _ => ⟨rfl, ?_⟩, by simp⟩
      intro he
      injection he with h1 h2
      simp only [wf, maxId] at hw
      omega
  | noneObj i =>
      refine ⟨by simp, fun _ => ⟨rfl, rfl, noneObj_fresh_ne_noneObj ?_⟩⟩
      simpa [wf, maxId] using hw
  | undefined => simp [isOptionInstance] at h
  | null => simp [isOptionInstance] at h
  | prim n => simp [isOptionInstance] at h

theorem C6_map_fresh_some_witness :
    isOptionInstance (JVal.someObj 0 (JVal.prim 3)) = true
    ∧ wf ⟨1, 0⟩ (JVal.someObj 0 (JVal.prim 3))
    ∧ map (JVal.someObj 0 (JVal.prim 3))
        (fun v t => ((fun w => w) v, ⟨t.next, t.calls + 1⟩)) ⟨1, 0⟩
        = .ok (JVal.someObj 1 (JVal.prim 3), ⟨2, 1⟩)
    ∧ JVal.someObj 1 (JVal.prim 3) ≠ JVal.someObj 0 (JVal.prim 3) := by
  have h := (C6_map_fresh_some (JVal.someObj 0 (JVal.prim 3)) (fun w => w)
      opId opId ⟨1, 0⟩ rfl (by decide)).1 rfl
  exact ⟨rfl, by decide, h.1, h.2⟩

lemma exactlyOneVariant_of_isSome {v : JVal} (h : isSome v = true) :
    exactlyOneVariant v := by
  cases v <;> simp_all [exactlyOneVariant]

/-- C8: every Option built through the public interface is in exactly one of
the two variant states — exactly one of `isSome()` / `isNone()` is true on any
`Some` or `None` instance, and this is preserved by the results of the
Option-returning operations (`some`, `none`, `default`, `map`, `and`,
`andThen`, `filter`, `or`, `orElse`, `xor`, `flatten`), provided the
caller-supplied functions themselves return Option instances. -/
theorem C8_exactly_one_variant (a b v : JVal) (opf : JVal → S → JVal × S)
    (opU : Unit → S → JVal × S) (p : JVal → Bool) (s : S)
    (ha : isOptionInstance a = true) (hb : isOptionInstance b = true)
    (hop : ∀ w t, isOptionInstance ((opf w t).1) = true)
    (hopU : ∀ t, isOptionInstance ((opU () t).1) = true) :
    exactlyOneVariant a
    ∧ exactlyOneVariant ((some v s).1)
    ∧ exactlyOneVariant ((none s).1)
    ∧ exactlyOneVariant ((default s).1)
    ∧ (∀ r, map a opf s = .ok r → exactlyOneVariant r.1)
    ∧ exactlyOneVariant ((and a b s).1)
    ∧ (∀ r, andThen a opf s = .ok r → exactlyOneVariant r.1)
    ∧ (∀ r, filter a p s = .ok r → exactlyOneVariant r.1)
    ∧ exactlyOneVariant (or a b)
    ∧ exactlyOneVariant ((orElse a opU s).1)
    ∧ exactlyOneVariant ((xor a b s).1)
    ∧ (∀ r, flatten a s = .ok r → exactlyOneVariant r.1) := by
  refine ⟨exactlyOneVariant_of_instance ha, rfl, rfl, rfl, ?_, ?_, ?_, ?_, ?_, ?_, ?_, ?_⟩
  · cases a with
    | someObj i w =>
        intro r hr
        injection hr with h1
        rw [← h1]
        rfl
    | noneObj i =>
        intro r hr
        injection hr with h1
        rw [← h1]
        rfl
    | undefined => simp [isOptionInstance] at ha
    | null => simp [isOptionInstance] at ha
    | prim n => simp [isOptionInstance] at ha
  · cases a with
    | someObj i w => exact exactlyOneVariant_of_instance hb
    | noneObj i => rfl
    | undefined => simp [isOptionInstance] at ha
    | null => simp [isOptionInstance] at ha
    | prim n => simp [isOptionInstance] at ha
  · cases a with
    | someObj i w =>
        intro r hr
        injection hr with h1
        rw [← h1]
        exact exactlyOneVariant_of_instance (hop w s)
    | noneObj i =>
        intro r hr
        injection hr with h1
        rw [← h1]
        rfl
    | undefined => simp [isOptionInstance] at ha
    | null => simp [isOptionInstance] at ha
    | prim n => simp [isOptionInstance] at ha
  · cases a with
    | someObj i w =>
        intro r hr
        injection hr with h1
        rw [← h1]
        beta_reduce
        by_cases hp : p (valueField (JVal.someObj i w)) = true
        · rw [if_pos hp]
          exact exactlyOneVariant_of_instance ha
        · rw [if_neg hp]
          rfl
    | noneObj i =>
        intro r hr
        injection hr with h1
        rw [← h1]
        rfl
    | undefined => simp [isOptionInstance] at ha
    | null => simp [isOptionInstance] at ha
    | prim n => simp [isOptionInstance] at ha
  · cases a with
    | someObj i w => rfl
    | noneObj i => exact exactlyOneVariant_of_instance hb
    | undefined => simp [isOptionInstance] at ha
    | null => simp [isOptionInstance] at ha
    | prim n => simp [isOptionInstance] at ha
  · cases a with
    | someObj i w => rfl
    | noneObj i => exact exactlyOneVariant_of_instance (hopU s)
    | undefined => simp [isOptionInstance] at ha
    | null => simp [isOptionInstance] at ha
    | prim n => simp [isOptionInstance] at ha
  · cases a with
    | someObj i w =>
        cases b with
        | someObj j u => rfl
        | noneObj j => rfl
        | undefined => simp [isOptionInstance] at hb
        | null => simp [isOptionInstance] at hb
        | prim n => simp [isOptionInstance] at hb
    | noneObj i =>
        cases b with
        | someObj j u => rfl
        | noneObj j => rfl
        | undefined => simp [isOptionInstance] at hb
        | null => simp [isOptionInstance] at hb
        | prim n => simp [isOptionInstance] at hb
    | undefined => simp [isOptionInstance] at ha
    | null => simp [isOptionInstance] at ha
    | prim n => simp [isOptionInstance] at ha
  · cases a with
    | someObj i w =>
        intro r hr
        injection hr with h1
        rw [← h1]
        beta_reduce
        by_cases hs : isSome (valueField (JVal.someObj i w)) = true
        · rw [if_pos hs]
          exact exactlyOneVariant_of_isSome hs
        · rw [if_neg hs]
          exact exactlyOneVariant_of_instance ha
    | noneObj i =>
        intro r hr
        injection hr with h1
        rw [← h1]
        rfl
    | undefined => simp [isOptionInstance] at ha
    | null => simp [isOptionInstance] at ha
    | prim n => simp [isOptionInstance] at ha

theorem C8_exactly_one_variant_witness :
    isOptionInstance (JVal.someObj 0 JVal.null) = true
    ∧ isOptionInstance (JVal.noneObj 1) = true
    ∧ exactlyOneVariant (JVal.someObj 0 JVal.null)
    ∧ exactlyOneVariant ((some JVal.undefined ⟨2, 0⟩).1)
    ∧ exactlyOneVariant ((xor (JVal.someObj 0 JVal.null) (JVal.noneObj 1) ⟨2, 0⟩).1) := by
  have h := C8_exactly_one_variant (JVal.someObj 0 JVal.null) (JVal.noneObj 1)
      JVal.undefined (fun w t => newNone t) fbNone predTrue ⟨2, 0⟩
      rfl rfl (fun w t => rfl) (fun t => rfl)
  exact ⟨rfl, rfl, h.1, h.2.1, h.2.2.2.2.2.2.2.2.2.2.1⟩

end OptionTS
